import Mathlib

/-!
Verification of the opencollective-api core spec against a shallow embedding
of the repository's code.

Part 1: the double-entry ledger / funds-flow engine.  The engine itself is
not part of the source tree given under src/ (only its test suite,
src/test/graphql.paymentMethods.test.js, is), so the definitions below are
modelled from the spec (spec.md sections 4.1 to 4.6), with the concrete
error messages and the rule evaluation order pinned by the expectations of
that test file.

Part 2: the conversation/loaders code (src/server/graphql/common/
conversations.ts), which is embedded directly from the source.
-/

namespace Spec2Proof

/-! ### Rounding helpers (spec section 4.3: round half away from zero) -/

/-- Modelled from the spec: rounding of a rational amount to the nearest
integer minor unit, half away from zero (spec section 4.3 "Rounding:
round-half-away-from-zero to the nearest integer minor-unit"). -/
def roundHalfAway (q : ℚ) : Int :=
  if 0 ≤ q then (q + 1 / 2).floor else -((-q + 1 / 2).floor)

/-- Modelled from the spec: rounding of a rational to 15 decimal places
(spec section 4.5, used for the stored inverse fx rate). -/
def round15 (q : ℚ) : ℚ :=
  ((roundHalfAway (q * 1000000000000000) : ℚ)) / 1000000000000000

/-! ### String helpers

Character-list based models of the string operations the code uses
(toLowerCase, toUpperCase, indexOf, split), kept structural so that every
concrete instance evaluates by definitional reduction. -/

/-- The JavaScript toLowerCase on basic latin letters. -/
def lowerString (s : String) : String := String.mk (s.data.map Char.toLower)

/-- The JavaScript toUpperCase on basic latin letters. -/
def upperString (s : String) : String := String.mk (s.data.map Char.toUpper)

/-- The JavaScript s.indexOf(c) !== -1 test. -/
def strContainsChar (s : String) (c : Char) : Bool := s.data.contains c

/-- Splitting a character list at every separator character; separators are
dropped and the (possibly empty) fragments between them kept. -/
def splitCharsAux (p : Char → Bool) : List Char → List (List Char)
  | [] => [[]]
  | c :: cs =>
    match splitCharsAux p cs with
    | [] => if p c then [[], []] else [[c]]
    | w :: ws => if p c then [] :: w :: ws else (c :: w) :: ws

/-- The JavaScript s.split(separator predicate). -/
def splitF (p : Char → Bool) (s : String) : List String :=
  (splitCharsAux p s.data).map String.mk

/-! ### Data model (spec section 3) -/

/-- Modelled from the spec: an Account ("Collective"), spec section 3.
The category is kept as the raw type string of the repository
("ORGANIZATION", "COLLECTIVE", "USER"), which the authorization error
message lowercases. -/
structure Account where
  id : Nat
  name : String
  slug : String
  category : String
  currency : String
  isHost : Bool
  HostCollectiveId : Option Nat
  hostFeePercent : Option ℚ
  CreatedByUserId : Option Nat
deriving DecidableEq

/-- Modelled from the spec: a Payment Method, owned by exactly one account,
with a fixed currency and an opaque handle (uuid), spec section 3. -/
structure PaymentMethod where
  id : Nat
  uuid : String
  service : String
  CollectiveId : Nat
  currency : String
deriving DecidableEq

/-- Modelled from the spec: the acting identity; adminOfIds is the set of
account ids the identity administers, isRoot marks the privileged root
operator (spec sections 4.1 and glossary). -/
structure Identity where
  id : Nat
  CollectiveId : Nat
  isRoot : Bool
  adminOfIds : List Nat
deriving DecidableEq

/-- Modelled from the spec: the source of an order, either an existing
account identifier or a provisioning request (name and website),
spec sections 4.2 and 6. -/
inductive FromInput where
  | existing (id : Nat)
  | provision (name : String) (website : String)
deriving DecidableEq

/-- Modelled from the spec: the optional contact used when provisioning a
new administering identity (spec section 6, the user field). -/
structure UserInput where
  email : String
  name : String
deriving DecidableEq

/-- Modelled from the spec: the order submission shape, spec section 6. -/
structure OrderInput where
  totalAmount : Int
  currency : Option String
  collectiveId : Nat
  paymentMethodUuid : String
  fromCollective : FromInput
  userInput : Option UserInput
  hostFeePercent : Option ℚ
  platformFeePercent : Option ℚ
deriving DecidableEq

/-- Modelled from the spec: the entry kind; entries are created in
DEBIT/CREDIT pairs (spec section 3). -/
inductive EntryKind where
  | DEBIT
  | CREDIT
deriving DecidableEq

/-- Modelled from the spec: a Ledger Entry (Transaction), spec section 3. -/
structure LedgerEntry where
  kind : EntryKind
  amount : Int
  currency : String
  hostCurrency : String
  hostCurrencyFxRate : ℚ
  amountInHostCurrency : Int
  hostFeeInHostCurrency : Int
  platformFeeInHostCurrency : Int
  paymentProcessorFeeInHostCurrency : Int
  netAmountInCollectiveCurrency : ℚ
  FromCollectiveId : Nat
  CollectiveId : Nat
  HostCollectiveId : Nat
  OrderId : Nat
  CreatedByUserId : Nat
deriving DecidableEq

/-- Modelled from the spec: the error taxonomy relevant to order creation
(spec section 7). -/
inductive OrderError where
  | unauthorized (msg : String)
  | validationFailed (msg : String)
  | notFound (msg : String)
deriving DecidableEq

/-- Modelled from the spec: the persisted state the funds-flow engine reads
and writes: accounts, payment methods, provisioned contact identities
(id and email), admin memberships (userId, accountId), ledger entries, and
fresh-id counters. -/
structure LedgerDB where
  accounts : List Account
  paymentMethods : List PaymentMethod
  identities : List (Nat × String)
  members : List (Nat × Nat)
  entries : List LedgerEntry
  nextAccountId : Nat
  nextUserId : Nat
  nextOrderId : Nat
deriving DecidableEq

/-- Modelled from the spec: result shape of order submission (spec
section 6: "the created order identifier plus resolved source/destination
account summaries"). -/
structure OrderResult where
  orderId : Nat
  fromCollectiveId : Nat
  collectiveId : Nat
deriving DecidableEq

def findAccount (db : LedgerDB) (i : Nat) : Option Account :=
  db.accounts.find? (fun a => a.id == i)

def findPM (db : LedgerDB) (uuid : String) : Option PaymentMethod :=
  db.paymentMethods.find? (fun pm => pm.uuid == uuid)

/-! ### Fee Calculator (spec section 4.3) -/

/-- Modelled from the spec: the fee sub-amounts (host-currency, negative
signed) and the net amount in the entry's own currency, spec section 4.3. -/
structure FeeSet where
  hostFeeInHostCurrency : Int
  platformFeeInHostCurrency : Int
  paymentProcessorFeeInHostCurrency : Int
  netAmountInCollectiveCurrency : ℚ
deriving DecidableEq

/-- Modelled from the spec: the Fee Calculator, spec section 4.3.
hostFee and platformFee are minus the rounded percentage of the base
amount converted at the fx rate; the processor fee is passed through; the
net amount is computed in the entry's own currency without rounding. -/
def computeFees (baseAmount : Int) (fxRate : ℚ) (hostFeePercent platformFeePercent : ℚ)
    (processorFeeInHostCurrency : Int) : FeeSet :=
  { hostFeeInHostCurrency := -(roundHalfAway (hostFeePercent / 100 * baseAmount * fxRate))
    platformFeeInHostCurrency := -(roundHalfAway (platformFeePercent / 100 * baseAmount * fxRate))
    paymentProcessorFeeInHostCurrency := processorFeeInHostCurrency
    netAmountInCollectiveCurrency := (baseAmount : ℚ) * (1 - hostFeePercent / 100) }

/-! ### Currency Conversion Service (spec section 4.4) -/

/-- Modelled from the spec: the Currency Conversion Service wrapper; when
the currencies are equal it returns exactly 1 without consulting the
provider (spec section 4.4). The provider is the rateFn parameter. -/
def getRate (rateFn : String → String → ℚ) (fromCurrency toCurrency : String) : ℚ :=
  if fromCurrency = toCurrency then 1 else rateFn fromCurrency toCurrency

/-! ### Ledger Engine (spec section 4.5) -/

/-- Modelled from the spec: the Ledger Engine realization step, spec
section 4.5.  The CREDIT entry stores the amount, the amount converted to
host currency (rounded half away from zero), the inverse fx rate rounded
to 15 decimal places, and the fee set; the mirrored DEBIT entry negates
amount, amountInHostCurrency, each fee sub-amount, and the net amount, and
swaps the source/destination roles; both share the order reference. -/
def realize (amount : Int) (currency hostCurrency : String)
    (sourceId destId hostId orderId actingUserId : Nat)
    (fx : ℚ) (fees : FeeSet) : LedgerEntry × LedgerEntry :=
  let credit : LedgerEntry :=
    { kind := .CREDIT
      amount := amount
      currency := currency
      hostCurrency := hostCurrency
      hostCurrencyFxRate := round15 (1 / fx)
      amountInHostCurrency := roundHalfAway ((amount : ℚ) * fx)
      hostFeeInHostCurrency := fees.hostFeeInHostCurrency
      platformFeeInHostCurrency := fees.platformFeeInHostCurrency
      paymentProcessorFeeInHostCurrency := fees.paymentProcessorFeeInHostCurrency
      netAmountInCollectiveCurrency := fees.netAmountInCollectiveCurrency
      FromCollectiveId := sourceId
      CollectiveId := destId
      HostCollectiveId := hostId
      OrderId := orderId
      CreatedByUserId := actingUserId }
  let debit : LedgerEntry :=
    { credit with
      kind := .DEBIT
      amount := -amount
      amountInHostCurrency := -credit.amountInHostCurrency
      hostFeeInHostCurrency := -credit.hostFeeInHostCurrency
      platformFeeInHostCurrency := -credit.platformFeeInHostCurrency
      paymentProcessorFeeInHostCurrency := -credit.paymentProcessorFeeInHostCurrency
      netAmountInCollectiveCurrency := -credit.netAmountInCollectiveCurrency
      FromCollectiveId := destId
      CollectiveId := sourceId }
  (debit, credit)

/-! ### Authorization Guard (spec section 4.1)

The rule texts and the evaluation order are pinned by the repository's
test suite (src/test/graphql.paymentMethods.test.js): the platform-fee
root check fires before the on-behalf-of check (the test
"fails to change platformFeePercent if not root" submits a host source as
a non-admin and still receives the platform-fee message), and the messages
are the exact strings the tests assert. -/

/-- Modelled from the spec: guard rule for the privileged platform fee
override (spec section 4.1 rule 3); message as asserted by the test
"fails to change platformFeePercent if not root". -/
def checkPlatformFee (u : Identity) (input : OrderInput) : Option OrderError :=
  if input.platformFeePercent.isSome && !u.isRoot then
    some (.unauthorized "Only a root can change the platformFeePercent")
  else none

/-- Modelled from the spec: guard rule for creating an order on behalf of
a host account specified by identifier (spec section 4.1 rule 2); message
as asserted by the test "fails to add funds if not logged in as an admin
of the host": the account's display name followed by its lowercased
category. -/
def checkOnBehalf (u : Identity) (input : OrderInput) (db : LedgerDB) : Option OrderError :=
  match input.fromCollective with
  | .existing i =>
    match findAccount db i with
    | none => some (.notFound "From collective not found")
    | some a =>
      if a.isHost && !(u.adminOfIds.contains i) then
        some (.unauthorized ("You don't have sufficient permissions to create an order on behalf of the "
          ++ a.name ++ " " ++ lowerString a.category))
      else none
  | .provision _ _ => none

/-- Modelled from the spec: guard rule for payment method access (spec
section 4.1 rule 4): the payment method must belong to an account the
acting identity administers, or belong to the destination's host while
the source is that same host. -/
def checkPmAccess (u : Identity) (input : OrderInput) (dest : Account)
    (pm : PaymentMethod) : Option OrderError :=
  let sourceIsDestHost :=
    match input.fromCollective with
    | .existing i => dest.HostCollectiveId == some i
    | .provision _ _ => false
  if u.adminOfIds.contains pm.CollectiveId
      || (dest.HostCollectiveId == some pm.CollectiveId && sourceIsDestHost) then
    none
  else some (.unauthorized "You don't have sufficient permissions to access this payment method")

/-- Modelled from the spec: guard rule for host consistency (spec section
4.1 rule 5): when the payment method's owning account is a host, the
destination's current host must be that same host; the message names the
destination's current host identifier, as asserted by the test "fails to
add funds to a collective not hosted on the same host". -/
def checkPmHost (db : LedgerDB) (dest : Account) (pm : PaymentMethod) : Option OrderError :=
  match findAccount db pm.CollectiveId with
  | none => some (.notFound "Payment method collective not found")
  | some owner =>
    if owner.isHost then
      match dest.HostCollectiveId with
      | some h2 =>
        if h2 ≠ pm.CollectiveId then
          some (.validationFailed ("You need to use the payment method of the host ("
            ++ toString h2 ++ ") to add funds to this collective"))
        else none
      | none => some (.validationFailed "This collective has no host")
    else none

/-- Modelled from the spec: the Authorization Guard (spec section 4.1),
a pure decision function evaluated rule by rule, first failure wins.
Rule order pinned by the tests: authentication, platform-fee override,
on-behalf-of host admin, payment method access, host consistency. -/
def authorize (acting : Option Identity) (input : OrderInput) (db : LedgerDB) : Option OrderError :=
  match acting with
  | none => some (.unauthorized "You need to be logged in to create an order")
  | some u =>
    match checkPlatformFee u input with
    | some e => some e
    | none =>
      match checkOnBehalf u input db with
      | some e => some e
      | none =>
        match findAccount db input.collectiveId with
        | none => some (.notFound "This collective does not exist")
        | some dest =>
          match findPM db input.paymentMethodUuid with
          | none => some (.notFound "This payment method does not exist")
          | some pm =>
            match checkPmAccess u input dest pm with
            | some e => some e
            | none => checkPmHost db dest pm

/-! ### Counterparty Resolver (spec section 4.2) -/

/-- Modelled from the spec: URL-safe slug derivation from a display name
(spec section 4.2): lowercase the name and join its alphanumeric runs
with hyphens. -/
def slugify (name : String) : String :=
  String.intercalate "-" ((splitF (fun c => !c.isAlphanum) (lowerString name)).filter (fun s => s ≠ ""))

/-- Modelled from the spec: unique slug selection, appending a numeric
suffix on collision (spec section 4.2).  The candidates base, base-1, ...
are tried in order against the taken slugs; among the first
taken.length + 1 candidates one is always free. -/
def uniqueSlugFrom (base : String) (taken : List String) : String :=
  let candidate := fun (n : Nat) => if n = 0 then base else base ++ "-" ++ toString n
  match (List.range (taken.length + 1)).find? (fun n => !(taken.contains (candidate n))) with
  | some n => candidate n
  | none => base ++ "-" ++ toString (taken.length + 1)

/-- Modelled from the spec: the Counterparty Resolver (spec section 4.2).
An existing identifier is returned unchanged; a provisioning request
creates a new organization-category account with a unique URL-safe slug
and CreatedByUserId set to the acting identity, and, when a contact email
is supplied, provisions a minimal identity record for it (if none exists)
and attaches it as administrator of the new account. -/
def resolve (input : OrderInput) (u : Identity) (db : LedgerDB) : LedgerDB × Nat × Bool :=
  match input.fromCollective with
  | .existing i => (db, i, false)
  | .provision nm _ws =>
    let slug := uniqueSlugFrom (slugify nm) (db.accounts.map (fun a => a.slug))
    let acct : Account :=
      { id := db.nextAccountId
        name := nm
        slug := slug
        category := "ORGANIZATION"
        currency := ""
        isHost := false
        HostCollectiveId := none
        hostFeePercent := none
        CreatedByUserId := some u.id }
    let db1 := { db with accounts := db.accounts ++ [acct], nextAccountId := db.nextAccountId + 1 }
    match input.userInput with
    | none => (db1, acct.id, true)
    | some ui =>
      match db1.identities.find? (fun p => p.2 == ui.email) with
      | some p => ({ db1 with members := db1.members ++ [(p.1, acct.id)] }, acct.id, true)
      | none =>
        ({ db1 with
            identities := db1.identities ++ [(db1.nextUserId, ui.email)]
            members := db1.members ++ [(db1.nextUserId, acct.id)]
            nextUserId := db1.nextUserId + 1 }, acct.id, true)

/-! ### Order creation pipeline (spec section 2 data flow) -/

/-- Modelled from the spec: the end-to-end order creation pipeline
(spec section 2: API, Authorization Guard, Counterparty Resolver,
Currency Conversion Service plus Fee Calculator, Ledger Engine).  On any
guard failure or missing reference the state is returned unchanged and no
ledger entries are produced; on success the resolved state plus the
DEBIT/CREDIT pair appended to the ledger is returned.  The host fee
percent defaults to 0 when the order does not supply one (as the add-funds
tests pin: the destination's own hostFeePercent of 5 is not applied). -/
def createOrder (acting : Option Identity) (input : OrderInput)
    (rateFn : String → String → ℚ) (db : LedgerDB) :
    LedgerDB × Except OrderError OrderResult :=
  match acting with
  | none => (db, .error (.unauthorized "You need to be logged in to create an order"))
  | some u =>
    match authorize (some u) input db with
    | some e => (db, .error e)
    | none =>
      match findAccount db input.collectiveId with
      | none => (db, .error (.notFound "This collective does not exist"))
      | some dest =>
        match findPM db input.paymentMethodUuid with
        | none => (db, .error (.notFound "This payment method does not exist"))
        | some pm =>
          match findAccount db pm.CollectiveId with
          | none => (db, .error (.notFound "Payment method collective not found"))
          | some hostAcct =>
            let resolved := resolve input u db
            let db1 := resolved.1
            let sourceId := resolved.2.1
            let currency := input.currency.getD dest.currency
            let fx := getRate rateFn currency hostAcct.currency
            let fees := computeFees input.totalAmount fx (input.hostFeePercent.getD 0)
              (input.platformFeePercent.getD 0) 0
            let orderId := db1.nextOrderId
            let pair := realize input.totalAmount currency hostAcct.currency sourceId dest.id
              hostAcct.id orderId u.id fx fees
            ({ db1 with
                entries := db1.entries ++ [pair.1, pair.2]
                nextOrderId := orderId + 1 },
              .ok { orderId := orderId, fromCollectiveId := sourceId, collectiveId := dest.id })

/-! ### Balance Aggregator (spec section 4.6) -/

/-- Modelled from the spec: the unsigned magnitude of the fee sub-amounts
of an entry (spec section 4.6). -/
def entryFeeMagnitude (e : LedgerEntry) : Int :=
  (e.hostFeeInHostCurrency.natAbs : Int) + (e.platformFeeInHostCurrency.natAbs : Int)
    + (e.paymentProcessorFeeInHostCurrency.natAbs : Int)

/-- Modelled from the spec: the Balance Aggregator (spec section 4.6): the
sum of amountInHostCurrency over entries where the entity is the
destination, minus the sum where it is the source, minus the unsigned
magnitude of the fee sub-amounts of every entry touching the entity
(the entity's currency taken to be the host currency of its entries). -/
def balanceOf (entityId : Nat) (entries : List LedgerEntry) : Int :=
  ((entries.filter (fun e => e.CollectiveId == entityId)).map
      (fun e => e.amountInHostCurrency)).sum
  - ((entries.filter (fun e => e.FromCollectiveId == entityId)).map
      (fun e => e.amountInHostCurrency)).sum
  - ((entries.filter (fun e => e.CollectiveId == entityId || e.FromCollectiveId == entityId)).map
      entryFeeMagnitude).sum

/-! ### createConversation (src/server/graphql/common/conversations.ts)

Shallow embedding of the createConversation operation.  The database is a
record of conversation rows, comment rows, follower rows and fresh-id
counters; the sequelize transaction is modelled by returning the original
state whenever a step inside the transaction fails (rollback).  The
fallibility of the comment insert (a referential failure) is exposed as
the commentOk flag; findCollective and hasFeatureConversations stand for
the Collective lookup and the allowed-features check, both external to
this function. -/

structure ConvUser where
  id : Nat
  CollectiveId : Nat
deriving DecidableEq

structure ConvCollective where
  id : Nat
deriving DecidableEq

/-- Params given to create a new conversation (ICreateConversationParams). -/
structure CreateConversationParams where
  title : String
  html : String
  CollectiveId : Nat
  tags : Option (List String)
deriving DecidableEq

structure ConversationRec where
  id : Nat
  CreatedByUserId : Nat
  CollectiveId : Nat
  FromCollectiveId : Nat
  title : String
  tags : Option (List String)
  summary : String
  RootCommentId : Option Nat
deriving DecidableEq

structure CommentRec where
  id : Nat
  CollectiveId : Nat
  ConversationId : Nat
  CreatedByUserId : Nat
  FromCollectiveId : Nat
  html : String
deriving DecidableEq

inductive ConvError where
  | unauthorized
  | collectiveMissing
  | featureNotSupported
  | commentCreateFailed
deriving DecidableEq

structure ConvDB where
  conversations : List ConversationRec
  comments : List CommentRec
  followers : List (Nat × Nat)
  nextConversationId : Nat
  nextCommentId : Nat
deriving DecidableEq

/-- Embedding of createConversation (conversations.ts lines 19 to 65).
Returns the final database state together with the created conversation or
the error raised.  An absent remoteUser raises Unauthorized before any
lookup or write; a missing collective raises an error; a collective
without the conversations feature raises FeatureNotSupportedForCollective;
the conversation row, the root comment row and the RootCommentId update
happen inside one transaction, rolled back whole if the comment insert
fails; on success the follower row is added after the transaction. -/
def createConversation (remoteUser : Option ConvUser) (params : CreateConversationParams)
    (findCollective : Nat → Option ConvCollective)
    (hasFeatureConversations : ConvCollective → Bool)
    (commentOk : Bool) (db : ConvDB) : ConvDB × Except ConvError ConversationRec :=
  match remoteUser with
  | none => (db, .error .unauthorized)
  | some u =>
    match findCollective params.CollectiveId with
    | none => (db, .error .collectiveMissing)
    | some collective =>
      if !hasFeatureConversations collective then
        (db, .error .featureNotSupported)
      else
        let conversation : ConversationRec :=
          { id := db.nextConversationId
            CreatedByUserId := u.id
            CollectiveId := collective.id
            FromCollectiveId := u.CollectiveId
            title := params.title
            tags := params.tags
            summary := params.html
            RootCommentId := none }
        let db1 := { db with
          conversations := db.conversations ++ [conversation]
          nextConversationId := db.nextConversationId + 1 }
        if commentOk then
          let comment : CommentRec :=
            { id := db1.nextCommentId
              CollectiveId := collective.id
              ConversationId := conversation.id
              CreatedByUserId := u.id
              FromCollectiveId := u.CollectiveId
              html := params.html }
          let db2 := { db1 with
            comments := db1.comments ++ [comment]
            nextCommentId := db1.nextCommentId + 1 }
          let updated := { conversation with RootCommentId := some comment.id }
          let db3 := { db2 with
            conversations := db2.conversations.map
              (fun (c : ConversationRec) => if c.id = conversation.id then updated else c) }
          let db4 := { db3 with followers := db3.followers ++ [(u.id, conversation.id)] }
          (db4, .ok updated)
        else
          (db, .error .commentCreateFailed)

/-! ### Loaders: sortResults and sortResultsSimple
(second fragment of src/server/graphql/common/conversations.ts)

Shallow embedding.  JavaScript entities are modelled as flat records of
string attributes, with an optional dataValues sub-record (a sequelize
instance exposes one); attribute values are strings, the empty string
standing for a falsy/absent value.  The resultsById object is an
association list keyed by strings.  Stored values are JVal: either an
entity or an array of entities (the defaultValue-is-an-Array branch of the
legacy code) and the JavaScript undefined.  Lodash get(dataValues, attr)
is modelled as direct property lookup, which on this flat model agrees
with lodash for own properties. -/

structure Entity where
  attrs : List (String × String)
  dataValues : Option (List (String × String))
deriving DecidableEq

inductive JVal where
  | undef
  | ent (e : Entity)
  | arr (l : List Entity)
deriving DecidableEq

/-- JavaScript truthiness of a stored value: undefined is falsy, objects
and arrays are truthy. -/
def JVal.truthy : JVal → Bool
  | .undef => false
  | .ent _ => true
  | .arr _ => true

/-- Property access obj[key] on a flat attribute record; a missing
property reads as the falsy empty string (undefined). -/
def getProp (attrs : List (String × String)) (k : String) : String :=
  match attrs.find? (fun p => p.1 == k) with
  | some p => p.2
  | none => ""

/-- The resultsById lookup obj[key]. -/
def lookupAL (m : List (String × JVal)) (k : String) : Option JVal :=
  (m.find? (fun p => p.1 == k)).map (fun p => p.2)

/-- The resultsById assignment obj[key] = v. -/
def insertAL (m : List (String × JVal)) (k : String) (v : JVal) : List (String × JVal) :=
  (k, v) :: m.filter (fun p => p.1 ≠ k)

/-- The v Or d expression of JavaScript: v when truthy, d otherwise. -/
def jsOr (v : Option JVal) (d : JVal) : JVal :=
  match v with
  | some x => if x.truthy then x else d
  | none => d

/-- One step of the results.forEach of sortResultsSimple: store the item
under its attribute value when that value is truthy. -/
def simpleStep (attrName : String) (m : List (String × JVal)) (item : Entity) :
    List (String × JVal) :=
  let id := getProp item.attrs attrName
  if id ≠ "" then insertAL m id (.ent item) else m

/-- Embedding of sortResultsSimple (loader fragment lines 108 to 124). -/
def sortResultsSimple (keys : List String) (results : List Entity)
    (attrName : String) (defaultValue : JVal) : List JVal :=
  let resultsById := results.foldl (simpleStep attrName) []
  keys.map (fun id => jsOr (lookupAL resultsById id) defaultValue)

/-- The key computation of the legacy sortResults: take dataValues when the
record carries one, split the attribute on a colon into sub-field
components joined back with colons, else a plain property read (lodash
get). -/
def legacyKey (attrName : String) (r : Entity) : String :=
  let dataValues := match r.dataValues with
    | some dv => dv
    | none => r.attrs
  if strContainsChar attrName ':' then
    String.intercalate ":" ((splitF (fun c => c == ':') attrName).map (fun a => getProp dataValues a))
  else getProp dataValues attrName

/-- One step of the results.forEach of the legacy sortResults: skip falsy
keys; when the defaultValue is an Array, push onto a bucket; otherwise
store the record, the last one winning. -/
def legacyStep (attrName : String) (defaultValue : JVal) (m : List (String × JVal))
    (r : Entity) : List (String × JVal) :=
  let key := legacyKey attrName r
  if key = "" then m
  else
    match defaultValue with
    | .arr _ =>
      match lookupAL m key with
      | some (.arr l) => insertAL m key (.arr (l ++ [r]))
      | _ => insertAL m key (.arr [r])
    | _ => insertAL m key (.ent r)

/-- Embedding of the legacy sortResults (loader fragment lines 140
to 173). -/
def sortResults (keys : List String) (results : List Entity)
    (attrName : String) (defaultValue : JVal) : List JVal :=
  let resultsById := results.foldl (legacyStep attrName defaultValue) []
  keys.map (fun id => jsOr (lookupAL resultsById id) defaultValue)

/-! ### Conversation model: the tags field
(third fragment of src/server/graphql/common/conversations.ts)

The tags setter and the validateTags validator of the Conversation
sequelize model.  The stripHTML sanitizer lives in lib/sanitize-html,
outside the given sources, so it is kept as an abstract string function
parameter. -/

/-- The whitespace normalization cleanTag = upperCase.trim().replace of
whitespace runs by one space, as the composed trim-and-collapse: the
whitespace-separated words joined by single spaces. -/
def collapseWS (s : String) : String :=
  String.intercalate " " ((splitF Char.isWhitespace s).filter (fun w => w ≠ ""))

/-- The per-tag cleanup of the tags setter (model fragment lines 238 to
243): uppercase, trim and collapse whitespace, then strip HTML. -/
def cleanTag (stripHTML : String → String) (tag : String) : String :=
  stripHTML (collapseWS (upperString tag))

/-- Set deduplication preserving first occurrences, as Array.from over a
new Set. -/
def dedupFirst : List String → List String
  | [] => []
  | t :: ts => t :: dedupFirst (ts.filter (fun x => x ≠ t))
termination_by l => l.length
decreasing_by
  simp only [List.length_cons]
  exact Nat.lt_succ_of_le (ts.length_filter_le _)

/-- Embedding of the tags setter (model fragment lines 235 to 255): map
each truthy tag through the cleanup, drop falsy and empty results, store
null when nothing remains and the deduplicated array otherwise. -/
def setTags (stripHTML : String → String) (tags : Option (List String)) :
    Option (List String) :=
  match tags with
  | none => none
  | some ts =>
    let cleaned := (ts.map (fun tag => if tag ≠ "" then cleanTag stripHTML tag else ""))
      |>.filter (fun tag => tag ≠ "")
    if cleaned = [] then none else some (dedupFirst cleaned)

/-- The per-tag loop of validateTags: the first empty or over-long tag
raises. -/
def validateEachTag : List String → Except String Unit
  | [] => .ok ()
  | t :: ts =>
    if t.length = 0 then .error "Can't add empty tags"
    else if t.length > 32 then
      .error ("Tag " ++ t ++ " is too long, must me shorter than 32 characters")
    else validateEachTag ts

/-- Embedding of the validateTags validator (model fragment lines 257 to
275): a present array of more than 30 tags raises, then each tag is
checked for emptiness and the 32-character bound. -/
def validateTags (tags : Option (List String)) : Except String Unit :=
  match tags with
  | none => .ok ()
  | some ts =>
    if ts.length > 30 then
      .error ("Conversations cannot have more than 30 tags. Please remove "
        ++ toString (30 - (ts.length : Int)) ++ " tag(s).")
    else validateEachTag ts

/-! ### Concrete fixture mirroring src/test/graphql.paymentMethods.test.js

The host "open source collective" (USD, an organization that became a
host), the hosted collective "tipbox" (EUR, hostFeePercent 5), the two
users and their personal collectives, a second collective hosted
elsewhere, and the host's internal payment method.  The stubbed fx rate is
1.1654 (1 EUR = 1.1654 USD). -/

def hostAccountFix : Account :=
  { id := 1, name := "open source collective", slug := "open-source-collective"
    category := "ORGANIZATION", currency := "USD", isHost := true
    HostCollectiveId := none, hostFeePercent := none, CreatedByUserId := none }

def collectiveFix : Account :=
  { id := 2, name := "tipbox", slug := "tipbox"
    category := "COLLECTIVE", currency := "EUR", isHost := false
    HostCollectiveId := some 1, hostFeePercent := some 5, CreatedByUserId := none }

def userCollectiveFix : Account :=
  { id := 3, name := "Xavier", slug := "xavier"
    category := "USER", currency := "EUR", isHost := false
    HostCollectiveId := none, hostFeePercent := none, CreatedByUserId := none }

def adminCollectiveFix : Account :=
  { id := 4, name := "Host Admin", slug := "host-admin"
    category := "USER", currency := "USD", isHost := false
    HostCollectiveId := none, hostFeePercent := none, CreatedByUserId := none }

def otherCollectiveFix : Account :=
  { id := 6, name := "wwcode austin", slug := "wwcode-austin"
    category := "COLLECTIVE", currency := "USD", isHost := false
    HostCollectiveId := some 3, hostFeePercent := some 5, CreatedByUserId := none }

def hostPmFix : PaymentMethod :=
  { id := 1, uuid := "pm-host-uuid", service := "opencollective", CollectiveId := 1
    currency := "USD" }

def adminFix : Identity :=
  { id := 10, CollectiveId := 4, isRoot := false, adminOfIds := [1, 2, 4] }

def userFix : Identity :=
  { id := 11, CollectiveId := 3, isRoot := false, adminOfIds := [3] }

def dbFix : LedgerDB :=
  { accounts := [hostAccountFix, collectiveFix, userCollectiveFix, adminCollectiveFix,
      otherCollectiveFix]
    paymentMethods := [hostPmFix]
    identities := [], members := [], entries := []
    nextAccountId := 7, nextUserId := 20, nextOrderId := 1 }

def rateFix : String → String → ℚ := fun _ _ => 11654 / 10000

/-- The base add-funds order of the tests: 1000 minor units to tipbox,
paid with the host's internal payment method, on behalf of the host. -/
def baseOrderFix : OrderInput :=
  { totalAmount := 1000, currency := none, collectiveId := 2
    paymentMethodUuid := "pm-host-uuid", fromCollective := .existing 1
    userInput := none, hostFeePercent := none, platformFeePercent := none }

/-- The order of the platform-fee test: the base order with
platformFeePercent 5. -/
def orderPlatformFeeFix : OrderInput :=
  { baseOrderFix with platformFeePercent := some 5 }

/-- The order of the wrong-host test: the base order redirected to the
collective hosted by account 3. -/
def orderWrongHostFix : OrderInput :=
  { baseOrderFix with collectiveId := 6 }

/-- The order of the on-behalf-of-a-new-organization test: provisioning
"new org" with a contact email and hostFeePercent 4. -/
def orderProvisionFix : OrderInput :=
  { baseOrderFix with
    fromCollective := .provision "new org" "http://neworg.com"
    userInput := some { email := "admin@neworg.com", name := "Paul Newman" }
    hostFeePercent := some 4 }

/-- The single-entry ledger of the balance claim: one CREDIT of 198850 in
host currency toward entity 1 carrying a fee deduction of magnitude 100. -/
def c6EntryFix : LedgerEntry :=
  { kind := .CREDIT, amount := 198850, currency := "USD", hostCurrency := "USD"
    hostCurrencyFxRate := 1, amountInHostCurrency := 198850
    hostFeeInHostCurrency := 0, platformFeeInHostCurrency := 0
    paymentProcessorFeeInHostCurrency := -100, netAmountInCollectiveCurrency := 198750
    FromCollectiveId := 2, CollectiveId := 1, HostCollectiveId := 1
    OrderId := 1, CreatedByUserId := 10 }

/-! ## Theorems -/

/-- When the base slug is not yet taken, the unique slug is the base slug
itself. -/
theorem uniqueSlugFrom_not_taken (base : String) (taken : List String)
    (h : base ∉ taken) : uniqueSlugFrom base taken = base := by
  have hc : taken.contains base = false := by simpa using h
  unfold uniqueSlugFrom
  rw [List.range_succ_eq_map]
  simp [List.find?_cons, h]

unseal Rat.mul Rat.add Rat.sub Rat.inv in
/-- C1: for a realized order with totalAmount 1000 and fxRate 1.1654, the
CREDIT entry satisfies, at hostFeePercent 0: amountInHostCurrency 1165,
hostFeeInHostCurrency 0, netAmountInCollectiveCurrency 1000; and at
hostFeePercent 4: hostFeeInHostCurrency equals
minus round(0.04 * 1000 * 1.1654), that is -47, and
netAmountInCollectiveCurrency 960, per the Fee Calculator formulas with
rounding half away from zero. -/
theorem c1_fee_calculator_values :
    (realize 1000 "EUR" "USD" 1 2 1 1 10 (11654 / 10000)
        (computeFees 1000 (11654 / 10000) 0 0 0)).2.amountInHostCurrency = 1165
    ∧ (realize 1000 "EUR" "USD" 1 2 1 1 10 (11654 / 10000)
        (computeFees 1000 (11654 / 10000) 0 0 0)).2.hostFeeInHostCurrency = 0
    ∧ (realize 1000 "EUR" "USD" 1 2 1 1 10 (11654 / 10000)
        (computeFees 1000 (11654 / 10000) 0 0 0)).2.netAmountInCollectiveCurrency = 1000
    ∧ (realize 1000 "EUR" "USD" 1 2 1 1 10 (11654 / 10000)
        (computeFees 1000 (11654 / 10000) 4 0 0)).2.hostFeeInHostCurrency
        = -(roundHalfAway (4 / 100 * 1000 * (11654 / 10000)))
    ∧ (realize 1000 "EUR" "USD" 1 2 1 1 10 (11654 / 10000)
        (computeFees 1000 (11654 / 10000) 4 0 0)).2.hostFeeInHostCurrency = -47
    ∧ (realize 1000 "EUR" "USD" 1 2 1 1 10 (11654 / 10000)
        (computeFees 1000 (11654 / 10000) 4 0 0)).2.netAmountInCollectiveCurrency = 960
    ∧ (computeFees 1000 (11654 / 10000) 4 0 0).netAmountInCollectiveCurrency
        = (1000 : ℚ) * (1 - 4 / 100) := by
  refine ⟨?_, rfl, ?_, rfl, ?_, ?_, rfl⟩ <;> decide

/-- C2: for every realized order, the CREDIT entry stores as
hostCurrencyFxRate the inverse of the fx rate used for that order rounded
to 15 decimal places, and the mirrored DEBIT entry preserves it. -/
theorem c2_fx_rate_inversion (amount : Int) (cur hc : String)
    (s d h oid aid : Nat) (fx : ℚ) (fees : FeeSet) :
    (realize amount cur hc s d h oid aid fx fees).2.hostCurrencyFxRate = round15 (1 / fx)
    ∧ (realize amount cur hc s d h oid aid fx fees).1.hostCurrencyFxRate = round15 (1 / fx) :=
  ⟨rfl, rfl⟩

unseal Rat.mul Rat.add Rat.sub Rat.inv in
/-- C2 witness: at the stubbed rate 1.1654 the stored inverse rate is
0.858074480864939, the value of (1/1.1654).toFixed(15). -/
theorem c2_fx_rate_inversion_witness :
    (realize 1000 "EUR" "USD" 1 2 1 1 10 (11654 / 10000)
        (computeFees 1000 (11654 / 10000) 0 0 0)).2.hostCurrencyFxRate
      = 858074480864939 / 1000000000000000 :=
  (c2_fx_rate_inversion 1000 "EUR" "USD" 1 2 1 1 10 (11654 / 10000)
      (computeFees 1000 (11654 / 10000) 0 0 0)).1.trans (by decide)

/-- C3 counterexample: the test's own scenario (the non-admin user
submitting the base order on behalf of the host) is denied with the
message placing the account name before the lowercased category, not the
category before the name as the claim states (in either prefix
variant). -/
theorem c3_counterexample_message_order :
    createOrder (some userFix) baseOrderFix rateFix dbFix
      = (dbFix, .error (.unauthorized
          "You don't have sufficient permissions to create an order on behalf of the open source collective organization"))
    ∧ "You don't have sufficient permissions to create an order on behalf of the open source collective organization"
        ≠ "insufficient permissions to create an order on behalf of the organization open source collective"
    ∧ "You don't have sufficient permissions to create an order on behalf of the open source collective organization"
        ≠ "You don't have sufficient permissions to create an order on behalf of the organization open source collective" :=
  ⟨rfl, by decide, by decide⟩

/-- C3 amended: an order whose source account is specified by identifier
and is a host account, submitted by an acting identity that is not an
administrator of that host (and that does not trip the earlier
platform-fee check), fails with Unauthorized whose message ends with the
source account's name followed by its lowercased category, and the state
(hence the ledger) is unchanged. -/
theorem c3_on_behalf_of_host_denied (u : Identity) (input : OrderInput) (db : LedgerDB)
    (rateFn : String → String → ℚ) (i : Nat) (a : Account)
    (hfrom : input.fromCollective = .existing i)
    (hacct : findAccount db i = some a)
    (hhost : a.isHost = true)
    (hnotadmin : i ∉ u.adminOfIds)
    (hnofee : input.platformFeePercent = none) :
    createOrder (some u) input rateFn db
      = (db, .error (.unauthorized
          ("You don't have sufficient permissions to create an order on behalf of the "
            ++ a.name ++ " " ++ lowerString a.category))) := by
  simp [createOrder, authorize, checkPlatformFee, checkOnBehalf, hfrom, hacct, hhost,
    hnotadmin, hnofee]

/-- C3 witness: the amended statement evaluated on the test fixture. -/
theorem c3_on_behalf_of_host_denied_witness :
    createOrder (some userFix) baseOrderFix rateFix dbFix
      = (dbFix, .error (.unauthorized
          "You don't have sufficient permissions to create an order on behalf of the open source collective organization")) :=
  c3_on_behalf_of_host_denied userFix baseOrderFix dbFix rateFix 1 hostAccountFix
    rfl rfl rfl (by decide) rfl

/-- C4 counterexample: the non-root user supplying platformFeePercent 5 is
denied with "Only a root can change the platformFeePercent", which is not
the message the claim states. -/
theorem c4_counterexample_message :
    createOrder (some userFix) orderPlatformFeeFix rateFix dbFix
      = (dbFix, .error (.unauthorized "Only a root can change the platformFeePercent"))
    ∧ "Only a root can change the platformFeePercent"
        ≠ "only a root operator can change the platform fee" :=
  ⟨rfl, by decide⟩

/-- C4 amended: every order supplying a platformFeePercent override from
an authenticated non-root identity fails with Unauthorized and the
message "Only a root can change the platformFeePercent", regardless of
any other validity of the order, and the state (hence the ledger) is
unchanged. -/
theorem c4_platform_fee_requires_root (u : Identity) (input : OrderInput) (db : LedgerDB)
    (rateFn : String → String → ℚ) (p : ℚ)
    (hfee : input.platformFeePercent = some p)
    (hroot : u.isRoot = false) :
    createOrder (some u) input rateFn db
      = (db, .error (.unauthorized "Only a root can change the platformFeePercent")) := by
  simp [createOrder, authorize, checkPlatformFee, hfee, hroot]

/-- C4 witness: the amended statement evaluated on the test fixture. -/
theorem c4_platform_fee_requires_root_witness :
    createOrder (some userFix) orderPlatformFeeFix rateFix dbFix
      = (dbFix, .error (.unauthorized "Only a root can change the platformFeePercent")) :=
  c4_platform_fee_requires_root userFix orderPlatformFeeFix dbFix rateFix 5 rfl rfl

/-- C5 counterexample: the test's own scenario (the admin directing the
host's payment method at a collective hosted by account 3) fails with a
message naming the destination's current host identifier 3, not the
identifier 1 of the payment method's owning host as the claim states. -/
theorem c5_counterexample_named_host :
    createOrder (some adminFix) orderWrongHostFix rateFix dbFix
      = (dbFix, .error (.validationFailed
          "You need to use the payment method of the host (3) to add funds to this collective"))
    ∧ (3 : Nat) ≠ hostPmFix.CollectiveId
    ∧ "You need to use the payment method of the host (3) to add funds to this collective"
        ≠ "You need to use the payment method of the host (1) to add funds to this collective" :=
  ⟨rfl, by decide, by decide⟩

/-- C5 amended: an order whose payment method is owned by a host H while
the destination's current host is H2 with H2 different from H (the
earlier guard rules passing) fails with ValidationFailed whose message
names H2, the destination's current host identifier, and the state
(hence the ledger) is unchanged. -/
theorem c5_pm_host_mismatch (u : Identity) (input : OrderInput) (db : LedgerDB)
    (rateFn : String → String → ℚ) (dest : Account) (pm : PaymentMethod)
    (owner : Account) (h2 : Nat)
    (hfee : checkPlatformFee u input = none)
    (hbehalf : checkOnBehalf u input db = none)
    (hdest : findAccount db input.collectiveId = some dest)
    (hpm : findPM db input.paymentMethodUuid = some pm)
    (hacc : checkPmAccess u input dest pm = none)
    (howner : findAccount db pm.CollectiveId = some owner)
    (hishost : owner.isHost = true)
    (hh2 : dest.HostCollectiveId = some h2)
    (hne : h2 ≠ pm.CollectiveId) :
    createOrder (some u) input rateFn db
      = (db, .error (.validationFailed
          ("You need to use the payment method of the host (" ++ toString h2
            ++ ") to add funds to this collective"))) := by
  simp [createOrder, authorize, checkPmHost, hfee, hbehalf, hdest, hpm, hacc, howner,
    hishost, hh2, hne]

/-- C5 witness: the amended statement evaluated on the test fixture. -/
theorem c5_pm_host_mismatch_witness :
    createOrder (some adminFix) orderWrongHostFix rateFix dbFix
      = (dbFix, .error (.validationFailed
          "You need to use the payment method of the host (3) to add funds to this collective")) :=
  c5_pm_host_mismatch adminFix orderWrongHostFix dbFix rateFix otherCollectiveFix
    hostPmFix hostAccountFix 3 rfl rfl rfl rfl rfl rfl rfl rfl (by decide)

/-- C6: the Balance Aggregator returns 198750 for an entity whose ledger
holds one CREDIT entry of 198850 with an attributable fee deduction of
magnitude 100; in general it is the destination-side sum of
amountInHostCurrency minus the source-side sum minus the unsigned
magnitudes of all attributable fee sub-amounts. -/
theorem c6_balance_aggregator :
    balanceOf 1 [c6EntryFix] = 198750
    ∧ ∀ (entityId : Nat) (entries : List LedgerEntry),
        balanceOf entityId entries =
          ((entries.filter (fun e => e.CollectiveId == entityId)).map
              (fun e => e.amountInHostCurrency)).sum
          - ((entries.filter (fun e => e.FromCollectiveId == entityId)).map
              (fun e => e.amountInHostCurrency)).sum
          - ((entries.filter
                (fun e => e.CollectiveId == entityId || e.FromCollectiveId == entityId)).map
              entryFeeMagnitude).sum :=
  ⟨rfl, fun _ _ => rfl⟩

/-- C7: an order supplying a provisioning request (name plus contact email)
that passes authorization creates a new organization-category account whose
slug is the URL-safe derivation of the supplied name (made unique against
the existing slugs, the base slug itself when it is free), whose
CreatedByUserId is the acting identity, and the realized CREDIT entry
references that new account as its source. -/
theorem c7_counterparty_provisioning (u : Identity) (input : OrderInput) (db : LedgerDB)
    (rateFn : String → String → ℚ) (nm ws : String) (ui : UserInput)
    (dest : Account) (pm : PaymentMethod) (hostAcct : Account)
    (hauth : authorize (some u) input db = none)
    (hfrom : input.fromCollective = .provision nm ws)
    (huser : input.userInput = some ui)
    (hdest : findAccount db input.collectiveId = some dest)
    (hpm : findPM db input.paymentMethodUuid = some pm)
    (howner : findAccount db pm.CollectiveId = some hostAcct) :
    ∃ acct : Account,
      acct ∈ (createOrder (some u) input rateFn db).1.accounts
      ∧ acct.id = db.nextAccountId
      ∧ acct.category = "ORGANIZATION"
      ∧ acct.slug = uniqueSlugFrom (slugify nm) (db.accounts.map (fun a => a.slug))
      ∧ (slugify nm ∉ db.accounts.map (fun a => a.slug) → acct.slug = slugify nm)
      ∧ acct.CreatedByUserId = some u.id
      ∧ ∃ credit : LedgerEntry,
          credit ∈ (createOrder (some u) input rateFn db).1.entries
          ∧ credit.kind = .CREDIT
          ∧ credit.OrderId = db.nextOrderId
          ∧ credit.FromCollectiveId = acct.id := by
  simp only [createOrder, hauth, hdest, hpm, howner, resolve, hfrom, huser]
  cases hfind : List.find? (fun p => p.2 == ui.email) db.identities <;>
    exact ⟨_, List.mem_append_right _ (List.mem_singleton_self _), rfl, rfl, rfl,
      fun hfree => uniqueSlugFrom_not_taken _ _ hfree, rfl,
      (realize input.totalAmount (input.currency.getD dest.currency) hostAcct.currency
          db.nextAccountId dest.id hostAcct.id db.nextOrderId u.id
          (getRate rateFn (input.currency.getD dest.currency) hostAcct.currency)
          (computeFees input.totalAmount
            (getRate rateFn (input.currency.getD dest.currency) hostAcct.currency)
            (input.hostFeePercent.getD 0) (input.platformFeePercent.getD 0) 0)).2,
      List.mem_append_right _ (List.mem_cons_of_mem _ (List.mem_singleton_self _)),
      rfl, rfl, rfl⟩

/-- C7 witness: the provisioning theorem evaluated on the test fixture's
"new org" order (the derived slug evaluates to "new-org"). -/
theorem c7_counterparty_provisioning_witness :
    (∃ acct : Account,
      acct ∈ (createOrder (some adminFix) orderProvisionFix rateFix dbFix).1.accounts
      ∧ acct.id = dbFix.nextAccountId
      ∧ acct.category = "ORGANIZATION"
      ∧ acct.slug = uniqueSlugFrom (slugify "new org") (dbFix.accounts.map (fun a => a.slug))
      ∧ (slugify "new org" ∉ dbFix.accounts.map (fun a => a.slug) → acct.slug = slugify "new org")
      ∧ acct.CreatedByUserId = some adminFix.id
      ∧ ∃ credit : LedgerEntry,
          credit ∈ (createOrder (some adminFix) orderProvisionFix rateFix dbFix).1.entries
          ∧ credit.kind = .CREDIT
          ∧ credit.OrderId = dbFix.nextOrderId
          ∧ credit.FromCollectiveId = acct.id)
    ∧ slugify "new org" = "new-org" :=
  ⟨c7_counterparty_provisioning adminFix orderProvisionFix dbFix rateFix
      "new org" "http://neworg.com" { email := "admin@neworg.com", name := "Paul Newman" }
      collectiveFix hostPmFix hostAccountFix rfl rfl rfl rfl rfl rfl,
    rfl⟩

/-- C8: createConversation is guarded and atomic: an absent remoteUser
yields Unauthorized with the state untouched; a failing comment insert
rolls the whole transaction back, so no conversation persists and no
conversation is returned; and on success the returned conversation's
RootCommentId is the id of the comment created in the same transaction,
a comment that exists in the final state and points back at the
conversation. -/
theorem c8_createConversation_atomic (ru : Option ConvUser)
    (params : CreateConversationParams) (fc : Nat → Option ConvCollective)
    (hf : ConvCollective → Bool) (ok : Bool) (db : ConvDB) :
    (ru = none →
      createConversation ru params fc hf ok db = (db, .error .unauthorized))
    ∧ (ok = false →
      (createConversation ru params fc hf ok db).1 = db
      ∧ ∀ c, (createConversation ru params fc hf ok db).2 ≠ .ok c)
    ∧ (∀ c, (createConversation ru params fc hf ok db).2 = .ok c →
      c.RootCommentId = some db.nextCommentId
      ∧ ∃ cm, cm ∈ (createConversation ru params fc hf ok db).1.comments
          ∧ cm.id = db.nextCommentId ∧ cm.ConversationId = c.id) := by
  match ru with
  | none =>
    refine ⟨fun _ => rfl, fun h => ?_, fun c hc => ?_⟩
    · simp [createConversation]
    · simp [createConversation] at hc
  | some u =>
    refine ⟨fun h => Option.noConfusion h, ?_, ?_⟩
    · intro hok
      subst hok
      cases hcol : fc params.CollectiveId with
      | none => simp [createConversation, hcol]
      | some col =>
        by_cases hfeat : hf col
        · simp [createConversation, hcol, hfeat]
        · simp [createConversation, hcol, hfeat]
    · intro c hc
      cases hcol : fc params.CollectiveId with
      | none => simp [createConversation, hcol] at hc
      | some col =>
        by_cases hfeat : hf col
        · cases hok : ok with
          | false => simp [createConversation, hcol, hfeat, hok] at hc
          | true =>
            simp only [createConversation, hcol, hfeat, hok, Bool.not_true,
              Bool.false_eq_true, if_false, if_true, ite_true, ite_false] at hc ⊢
            have hc2 : c = { id := db.nextConversationId
                             CreatedByUserId := u.id
                             CollectiveId := col.id
                             FromCollectiveId := u.CollectiveId
                             title := params.title
                             tags := params.tags
                             summary := params.html
                             RootCommentId := some db.nextCommentId } := by
              cases hc
              rfl
            subst hc2
            refine ⟨rfl, ⟨{ id := db.nextCommentId
                            CollectiveId := col.id
                            ConversationId := db.nextConversationId
                            CreatedByUserId := u.id
                            FromCollectiveId := u.CollectiveId
                            html := params.html }, ?_, rfl, rfl⟩⟩
            simp [createConversation, hcol, hfeat]
        · simp [createConversation, hcol, hfeat] at hc

/-- C8 witness: a successful concrete run creates the root comment with id
200 attached to the returned conversation. -/
theorem c8_createConversation_atomic_witness :
    ({ id := 100, CreatedByUserId := 7, CollectiveId := 5, FromCollectiveId := 70,
        title := "title", tags := none, summary := "hi",
        RootCommentId := some 200 } : ConversationRec).RootCommentId = some 200
    ∧ ∃ cm, cm ∈ (createConversation (some { id := 7, CollectiveId := 70 })
          { title := "title", html := "hi", CollectiveId := 5, tags := none }
          (fun i => if i = 5 then some { id := 5 } else none) (fun _ => true) true
          { conversations := [], comments := [], followers := [],
            nextConversationId := 100, nextCommentId := 200 }).1.comments
        ∧ cm.id = 200 ∧ cm.ConversationId = 100 :=
  (c8_createConversation_atomic (some { id := 7, CollectiveId := 70 })
      { title := "title", html := "hi", CollectiveId := 5, tags := none }
      (fun i => if i = 5 then some { id := 5 } else none) (fun _ => true) true
      { conversations := [], comments := [], followers := [],
        nextConversationId := 100, nextCommentId := 200 }).2.2
    { id := 100, CreatedByUserId := 7, CollectiveId := 5, FromCollectiveId := 70,
      title := "title", tags := none, summary := "hi", RootCommentId := some 200 }
    rfl

/-- Two find? calls with predicates agreeing on the list agree. -/
theorem find?_congr_mem {α : Type} (l : List α) (p q : α → Bool)
    (h : ∀ x ∈ l, p x = q x) : l.find? p = l.find? q := by
  induction l with
  | nil => rfl
  | cons a l ih =>
    have ha := h a (List.mem_cons_self a l)
    rw [List.find?_cons, List.find?_cons, ha, ih (fun x hx => h x (List.mem_cons_of_mem a hx))]

/-- Filtering out the bindings of one key does not disturb lookups of
another key. -/
theorem find?_filter_of_ne (m : List (String × JVal)) (k k2 : String) (h : k2 ≠ k) :
    (m.filter (fun p => p.1 ≠ k)).find? (fun p => p.1 == k2)
      = m.find? (fun p => p.1 == k2) := by
  rw [List.find?_filter]
  apply find?_congr_mem
  intro x _
  by_cases hx : x.1 = k2
  · have hxk : ¬x.1 = k := by rw [hx]; exact h
    simp [hx, hxk]
    exact h
  · simp [hx]

/-- Looking up the key just inserted returns the inserted value. -/
theorem lookupAL_insert_self (m : List (String × JVal)) (k : String) (v : JVal) :
    lookupAL (insertAL m k v) k = some v := by
  simp [lookupAL, insertAL]

/-- Looking up a different key after an insertion is the lookup in the
original map. -/
theorem lookupAL_insert_ne (m : List (String × JVal)) (k k2 : String) (v : JVal)
    (h : k2 ≠ k) : lookupAL (insertAL m k v) k2 = lookupAL m k2 := by
  simp only [lookupAL, insertAL, List.find?_cons]
  have hbk : (k == k2) = false := by
    simp
    exact fun e => absurd e.symm h
  simp only [hbk]
  rw [find?_filter_of_ne m k k2 h]

/-- Two folds with step functions agreeing on the list elements agree. -/
theorem foldl_congr_mem {α β : Type} (l : List α) (f g : β → α → β) (b : β)
    (h : ∀ acc x, x ∈ l → f acc x = g acc x) : l.foldl f b = l.foldl g b := by
  induction l generalizing b with
  | nil => rfl
  | cons a l ih =>
    rw [List.foldl_cons, List.foldl_cons, h b a (List.mem_cons_self a l)]
    exact ih _ (fun acc x hx => h acc x (List.mem_cons_of_mem a hx))

/-- The resultsById map built by the forEach of sortResultsSimple binds
each key to the last result whose attribute is that key, falling through
to the initial map otherwise. -/
theorem lookupAL_foldl_simpleStep (a : String) (rs : List Entity) :
    ∀ (m : List (String × JVal)) (k : String),
      lookupAL (rs.foldl (simpleStep a) m) k =
        match rs.reverse.find? (fun r => getProp r.attrs a == k && k != "") with
        | some r => some (.ent r)
        | none => lookupAL m k := by
  induction rs with
  | nil => intro m k; rfl
  | cons r rs ih =>
    intro m k
    rw [List.foldl_cons, ih]
    rw [List.reverse_cons, List.find?_append]
    cases hfind : rs.reverse.find? (fun r => getProp r.attrs a == k && k != "") with
    | some r2 => simp
    | none =>
      simp only [Option.none_or]
      by_cases hak : getProp r.attrs a = k
      · by_cases hk : k = ""
        · have hstep : simpleStep a m r = m := by
            simp [simpleStep, hak, hk]
          have hpred : (getProp r.attrs a == k && k != "") = false := by
            simp [hk]
          simp [List.find?_cons, hpred, hstep]
        · have hpred : (getProp r.attrs a == k && k != "") = true := by
            simp [hak, hk]
          have hstep : simpleStep a m r = insertAL m k (.ent r) := by
            simp [simpleStep, hak, hk]
          simp only [List.find?_cons, hpred, hstep]
          exact lookupAL_insert_self m k (.ent r)
      · have hpred : (getProp r.attrs a == k && k != "") = false := by
          simp [hak]
        simp only [List.find?_cons, hpred, List.find?_nil]
        by_cases hra : getProp r.attrs a = ""
        · have hstep : simpleStep a m r = m := by
            simp [simpleStep, hra]
          rw [hstep]
        · have hstep : simpleStep a m r = insertAL m (getProp r.attrs a) (.ent r) := by
            simp [simpleStep, hra]
          rw [hstep, lookupAL_insert_ne _ _ _ _ (fun e => hak e.symm)]

/-- Under the conditions of the refinement claim the legacy step equals the
simple step. -/
theorem legacyStep_eq_simpleStep (a : String) (d : JVal) (r : Entity)
    (hcolon : strContainsChar a ':' = false)
    (hdv : r.dataValues = none)
    (harr : ∀ l, d ≠ JVal.arr l) :
    ∀ m, legacyStep a d m r = simpleStep a m r := by
  intro m
  have hkey : legacyKey a r = getProp r.attrs a := by
    simp [legacyKey, hdv, hcolon]
  cases d with
  | undef =>
    simp only [legacyStep, simpleStep, hkey]
    by_cases h : getProp r.attrs a = "" <;> simp [h]
  | ent e =>
    simp only [legacyStep, simpleStep, hkey]
    by_cases h : getProp r.attrs a = "" <;> simp [h]
  | arr l => exact absurd rfl (harr l)

/-- C9: when the attribute has no colon, every result exposes the key
directly as an own truthy property with no dataValues indirection, and
the default value is not an Array, the legacy sortResults agrees with
sortResultsSimple, and both return one output per key: the last result
whose attribute equals that key, or the default value when none
matches. -/
theorem c9_sortResults_refinement (keys : List String) (results : List Entity)
    (a : String) (d : JVal)
    (hcolon : strContainsChar a ':' = false)
    (hdv : ∀ r ∈ results, r.dataValues = none)
    (htruthy : ∀ r ∈ results, getProp r.attrs a ≠ "")
    (harr : ∀ l, d ≠ JVal.arr l) :
    sortResults keys results a d = sortResultsSimple keys results a d
    ∧ (sortResultsSimple keys results a d).length = keys.length
    ∧ ∀ (i : Nat) (k : String), keys[i]? = some k →
        (sortResultsSimple keys results a d)[i]? =
          some (match results.reverse.find? (fun r => getProp r.attrs a == k) with
                | some r => JVal.ent r
                | none => d) := by
  have hfold : results.foldl (legacyStep a d) [] = results.foldl (simpleStep a) [] :=
    foldl_congr_mem results _ _ [] (fun acc r hr =>
      legacyStep_eq_simpleStep a d r hcolon (hdv r hr) harr acc)
  have hmap : ∀ k : String,
      jsOr (lookupAL (results.foldl (simpleStep a) []) k) d =
        match results.reverse.find? (fun r => getProp r.attrs a == k) with
        | some r => JVal.ent r
        | none => d := by
    intro k
    rw [lookupAL_foldl_simpleStep]
    have hpred : results.reverse.find? (fun r => getProp r.attrs a == k && k != "")
        = results.reverse.find? (fun r => getProp r.attrs a == k) := by
      apply find?_congr_mem
      intro r hr
      have ht := htruthy r (List.mem_reverse.mp hr)
      by_cases hk : k = ""
      · subst hk
        simp [ht]
      · simp [hk]
    rw [hpred]
    cases results.reverse.find? (fun r => getProp r.attrs a == k) with
    | some r => rfl
    | none => rfl
  refine ⟨?_, ?_, ?_⟩
  · simp only [sortResults, sortResultsSimple]
    rw [hfold]
  · simp [sortResultsSimple]
  · intro i k hk
    simp only [sortResultsSimple]
    rw [List.getElem?_map, hk]
    exact congrArg some (hmap k)

/-- C9 witness: the equivalence evaluated on a concrete key list with a
duplicated attribute value (the later result wins) and a key with no
match. -/
theorem c9_sortResults_refinement_witness :
    sortResults ["2", "1", "9"]
        [⟨[("id", "1")], none⟩, ⟨[("id", "2")], none⟩, ⟨[("id", "1"), ("x", "y")], none⟩]
        "id" .undef
      = sortResultsSimple ["2", "1", "9"]
        [⟨[("id", "1")], none⟩, ⟨[("id", "2")], none⟩, ⟨[("id", "1"), ("x", "y")], none⟩]
        "id" .undef :=
  (c9_sortResults_refinement ["2", "1", "9"]
      [⟨[("id", "1")], none⟩, ⟨[("id", "2")], none⟩, ⟨[("id", "1"), ("x", "y")], none⟩]
      "id" .undef (by decide) (by decide) (by decide)
      (fun l h => JVal.noConfusion h)).1

/-- Every element surviving deduplication was in the input. -/
theorem mem_of_mem_dedupFirst : ∀ (l : List String) (x : String),
    x ∈ dedupFirst l → x ∈ l := by
  intro l
  induction l using dedupFirst.induct with
  | case1 => intro x hx; simp [dedupFirst] at hx
  | case2 t ts ih =>
    intro x hx
    rw [dedupFirst] at hx
    rcases List.mem_cons.mp hx with he | hm
    · exact he ▸ List.mem_cons_self t ts
    · exact List.mem_cons_of_mem t (List.mem_of_mem_filter (ih x hm))

/-- Set-based deduplication produces no duplicates. -/
theorem dedupFirst_nodup : ∀ l : List String, (dedupFirst l).Nodup := by
  intro l
  induction l using dedupFirst.induct with
  | case1 => simp [dedupFirst]
  | case2 t ts ih =>
    rw [dedupFirst]
    refine List.nodup_cons.mpr ⟨?_, ih⟩
    intro hmem
    have := mem_of_mem_dedupFirst _ _ hmem
    have := List.mem_filter.mp this
    simp at this

/-- Deduplication of a non-empty list is non-empty. -/
theorem dedupFirst_ne_nil : ∀ l : List String, l ≠ [] → dedupFirst l ≠ [] := by
  intro l hl
  cases l with
  | nil => exact absurd rfl hl
  | cons t ts =>
    rw [dedupFirst]
    exact List.cons_ne_nil _ _

/-- The per-tag validation loop raises exactly when some tag is empty or
longer than 32 characters. -/
theorem validateEachTag_error_iff (l : List String) :
    (∃ msg, validateEachTag l = .error msg) ↔ ∃ t ∈ l, t.length = 0 ∨ 32 < t.length := by
  induction l with
  | nil => simp [validateEachTag]
  | cons t ts ih =>
    by_cases h0 : t.length = 0
    · constructor
      · intro _
        exact ⟨t, List.mem_cons_self t ts, Or.inl h0⟩
      · intro _
        exact ⟨"Can't add empty tags", by simp [validateEachTag, h0]⟩
    · by_cases h32 : 32 < t.length
      · constructor
        · intro _
          exact ⟨t, List.mem_cons_self t ts, Or.inr h32⟩
        · intro _
          exact ⟨"Tag " ++ t ++ " is too long, must me shorter than 32 characters",
            by simp [validateEachTag, h0, h32]⟩
      · have hstep : validateEachTag (t :: ts) = validateEachTag ts := by
          simp [validateEachTag, h0, h32]
        constructor
        · rintro ⟨msg, hmsg⟩
          rw [hstep] at hmsg
          obtain ⟨t2, ht2, hp⟩ := ih.mp ⟨msg, hmsg⟩
          exact ⟨t2, List.mem_cons_of_mem t ht2, hp⟩
        · rintro ⟨t2, ht2, hp⟩
          rcases List.mem_cons.mp ht2 with he | hm
          · subst he
            rcases hp with hbad | hbad
            · exact absurd hbad h0
            · exact absurd hbad h32
          · obtain ⟨msg, hmsg⟩ := ih.mpr ⟨t2, hm, hp⟩
            exact ⟨msg, by rw [hstep]; exact hmsg⟩

/-- C10: the tags setter stores either null or a non-empty duplicate-free
array of non-empty strings, each the uppercased, whitespace-normalized,
HTML-stripped form of a supplied tag; and validation rejects exactly the
stored arrays with more than 30 tags, an empty tag, or a tag longer than
32 characters. -/
theorem c10_tags_invariant (sh : String → String) (tags : Option (List String))
    (l : List String) :
    (setTags sh tags = none
      ∨ ∃ stored, setTags sh tags = some stored ∧ stored ≠ [] ∧ stored.Nodup
          ∧ ∀ t ∈ stored, t ≠ ""
              ∧ ∃ ts t0, tags = some ts ∧ t0 ∈ ts ∧ t = cleanTag sh t0)
    ∧ ((∃ msg, validateTags (some l) = .error msg)
        ↔ 30 < l.length ∨ ∃ t ∈ l, t.length = 0 ∨ 32 < t.length) := by
  constructor
  · cases tags with
    | none => exact Or.inl rfl
    | some ts =>
      by_cases hnil :
          ((ts.map (fun tag => if tag ≠ "" then cleanTag sh tag else "")).filter
            (fun tag => tag ≠ "")) = []
      · left
        simp only [setTags]
        rw [if_pos hnil]
      · right
        refine ⟨dedupFirst ((ts.map (fun tag => if tag ≠ "" then cleanTag sh tag else "")).filter
            (fun tag => tag ≠ "")), ?_, ?_, dedupFirst_nodup _, ?_⟩
        · simp only [setTags]
          rw [if_neg hnil]
        · exact dedupFirst_ne_nil _ hnil
        · intro t ht
          have ht2 := mem_of_mem_dedupFirst _ t ht
          have ht3 := List.mem_filter.mp ht2
          have htne : t ≠ "" := by simpa using ht3.2
          obtain ⟨t0, ht0, he⟩ := List.mem_map.mp ht3.1
          refine ⟨htne, ts, t0, rfl, ht0, ?_⟩
          by_cases h0 : t0 = ""
          · rw [h0] at he
            simp at he
            exact absurd he.symm htne
          · rw [if_pos h0] at he
            exact he.symm
  · by_cases hlen : 30 < l.length
    · constructor
      · intro _
        exact Or.inl hlen
      · intro _
        exact ⟨"Conversations cannot have more than 30 tags. Please remove "
            ++ toString (30 - (l.length : Int)) ++ " tag(s).",
          by simp [validateTags, hlen]⟩
    · have hstep : validateTags (some l) = validateEachTag l := by
        simp [validateTags, hlen]
      simp only [hstep]
      constructor
      · intro h
        exact Or.inr ((validateEachTag_error_iff l).mp h)
      · rintro (h | h)
        · exact absurd h hlen
        · exact (validateEachTag_error_iff l).mpr h

/-- C10 witness: the validator rejects a concrete stored array holding an
empty tag. -/
theorem c10_tags_invariant_witness :
    ∃ msg, validateTags (some ["a", ""]) = .error msg :=
  (c10_tags_invariant (fun s => s) none ["a", ""]).2.mpr
    (Or.inr ⟨"", by simp, Or.inl rfl⟩)

end Spec2Proof
